import Mathlib

/-!
Verification development for the Job_autopilot pipeline.

Shallow embedding of the spreadsheet-backed record store and of the three
phases that the specification describes: the resume builder
(`cv_generator.generate_cvs`), the letter builder
(`letter_generator.generate_letters`) and the dispatcher
(`email_sender.send_applications` together with `email_sender.pick_sender`).

Modelling conventions:
  * A worksheet is a `List` of rows; `pandas.read_excel(...).fillna("")`
    means every text field below is a plain `String` (missing cells have
    already been normalised to `""`).
  * Python `str.strip()` is embedded as `pyStrip` (drop whitespace from both
    ends of the character list); Python `str.upper()` as `pyUpper`.
  * The numeric columns of the senders sheet pass through
    `pd.to_numeric(...).fillna(0).astype(int)`, so they are `Int` here.
  * The filesystem is a list of PDF file names; writing a PDF inserts its
    name; `Path.exists` / `glob` is `List.contains`.
  * The SMTP transport is an oracle `smtpOk : Nat → Bool` giving the outcome
    of the k-th `send_email` call of the run, and the wall clock is a
    pre-formatted `now : String` (the output of `strftime`).
  * Uncaught Python exceptions are modelled by an `aborted` marker that is
    sticky for the rest of the run and suppresses the final spreadsheet
    write, exactly as an exception propagating out of `send_applications`
    would.
-/

namespace JobAutopilot

/-- Characters dropped by Python `str.strip()` from both ends. -/
def stripChars (l : List Char) : List Char :=
  ((l.dropWhile Char.isWhitespace).reverse.dropWhile Char.isWhitespace).reverse

/-- Embedding of Python `str.strip()`. -/
def pyStrip (s : String) : String :=
  ⟨stripChars s.data⟩

/-- Embedding of Python `str.upper()` (character-wise uppercasing). -/
def pyUpper (s : String) : String :=
  ⟨s.data.map Char.toUpper⟩

/-- Embedding of Python `str.lower()` (character-wise lowercasing). -/
def pyLower (s : String) : String :=
  ⟨s.data.map Char.toLower⟩

/-- A row of the `profiles` sheet (the columns the pipeline touches). -/
structure Profile where
  profile_id : String
  nom : String
  prenom : String
  profil_pro : String
deriving Repr, DecidableEq

/-- A row of the `joboffers` sheet. -/
structure JobOffer where
  job_id : String
  recruiter_email : String
  infos : String
deriving Repr, DecidableEq

/-- A row of the `applications` sheet. `sent_at` stands for the value the
row has once the timestamp column exists; whether the column exists in the
stored sheet is tracked separately by `Store.has_sent_at_col`. -/
structure Application where
  profile_id : String
  job_id : String
  generate_lm : String
  email_sent : String
  sent_at : String
deriving Repr, DecidableEq

/-- A row of the optional `senders` sheet after the numeric coercion
`pd.to_numeric(...).fillna(0).astype(int)`. -/
structure SenderAcct where
  email : String
  password : String
  daily_limit : Int
  sent_today : Int
deriving Repr, DecidableEq

/-- The Excel workbook.  `senders = none` models the sheet being absent
(single-account mode).  `others` carries every unrelated sheet, to state
frame properties of the final write. -/
structure Store where
  profiles : List Profile
  joboffers : List JobOffer
  applications : List Application
  senders : Option (List SenderAcct)
  has_sent_at_col : Bool
  others : List (String × String)
deriving Repr, DecidableEq

/-- Selection predicate shared by `generate_letters` and
`send_applications` (letter_generator.py lines 77-78, email_sender.py lines
159-160): `generate_lm.str.upper() == "Y"` and `email_sent.str.strip() ==
""`.  After `fillna("")` the `isna()` disjunct of the source is always
false, so it is absorbed by the strip test. -/
def appPending (a : Application) : Bool :=
  pyUpper a.generate_lm == "Y" && pyStrip a.email_sent == ""

/-- The rows of `todo`, in sheet order (`apps[(mask)]`). -/
def pendingApps (apps : List Application) : List Application :=
  apps.filter appPending

/-- Whether row `i` of the applications sheet satisfies the selection
predicate. -/
def rowPending (apps : List Application) (i : Nat) : Bool :=
  match apps.get? i with
  | some a => appPending a
  | none => false

/-- The index set of `todo`, in ascending sheet order: `todo.iterrows()`
visits exactly these row labels. -/
def todoIdx (apps : List Application) : List Nat :=
  (List.range apps.length).filter (rowPending apps)

/-- `profs.loc[profs.profile_id == pid].squeeze()`: the first row of the
profiles sheet with the given id, or `none` when the selection is empty
(in which case the subsequent `profil.nom.upper()` raises an uncaught
`AttributeError` in the source). -/
def lookupProfile (profs : List Profile) (pid : String) : Option Profile :=
  profs.find? (fun p => p.profile_id == pid)

/-- `offers.loc[offers.job_id == jid].squeeze()`, same convention. -/
def lookupOffer (offers : List JobOffer) (jid : String) : Option JobOffer :=
  offers.find? (fun o => o.job_id == jid)

/-- Resume artifact name, `f"CV_{nom.upper()}_{prenom}.pdf"`. -/
def cvName (nom prenom : String) : String :=
  "CV_" ++ pyUpper nom ++ "_" ++ prenom ++ ".pdf"

/-- Letter artifact name, `f"LM_{nom.upper()}_{prenom}_{job_id}.pdf"`. -/
def lmName (nom prenom jid : String) : String :=
  "LM_" ++ pyUpper nom ++ "_" ++ prenom ++ "_" ++ jid ++ ".pdf"

/-- `cv_generator._clean` on one cell: `re.fullmatch(r"(nan|none|\s*)",
str(v), re.I)` sends the value to `""`. -/
def cleanField (s : String) : String :=
  if pyLower s == "nan" || pyLower s == "none" || pyStrip s == "" then "" else s

/-- The update done on success (email_sender.py lines 213-214). -/
def markSent (now : String) (a : Application) : Application :=
  { a with email_sent := "YES", sent_at := now }

/-- `avail.sort_values("sent_today").iloc[0]` together with its original
row label: a position (in sheet order) carrying the minimal `sent_today`
among the rows with `sent_today < daily_limit`.  Caveat: the source sorts
with the pandas default `kind` (quicksort), which is documented as not
stable, so when several qualifying rows tie on the minimal counter the
program does not specify which of them ends up at `iloc[0]`; this
embedding determinizes that choice to the earliest tied row.  The theorems
stated over it rely only on properties that hold whichever tied row an
unstable sort would yield: failure exactly when no row qualifies, and the
chosen row being some minimal qualifying row, bumped by exactly one. -/
def chooseMinAux : List SenderAcct → Option (Nat × SenderAcct)
  | [] => none
  | a :: rest =>
    match chooseMinAux rest with
    | none => if a.sent_today < a.daily_limit then some (0, a) else none
    | some (j, b) =>
      if a.sent_today < a.daily_limit then
        if b.sent_today < a.sent_today then some (j + 1, b) else some (0, a)
      else some (j + 1, b)

/-- `df.loc[snd.name, "sent_today"] += 1`: bump the counter of row `i`. -/
def bumpAt : List SenderAcct → Nat → List SenderAcct
  | [], _ => []
  | a :: rest, 0 => { a with sent_today := a.sent_today + 1 } :: rest
  | a :: rest, n + 1 => a :: bumpAt rest n

/-- The exhaustion message raised at email_sender.py line 80. -/
def noSenderMsg : String := "No sender available - all daily quotas reached"

/-- Multi-account `pick_sender` (email_sender.py lines 71-85) as a function
of the senders table it reads.  Returns the chosen row as read (the dict is
taken before the increment) together with the table with that row's counter
incremented.  The `RuntimeError` of line 80 is the `.error` case; it is not
caught by the `except (ValueError, FileNotFoundError)` clause and therefore
propagates to the caller. -/
def pick_sender (tbl : List SenderAcct) : Except String (SenderAcct × List SenderAcct) :=
  match chooseMinAux tbl with
  | none => .error noSenderMsg
  | some (i, snd) => .ok (snd, bumpAt tbl i)

/-- One step of `cv_generator.generate_cvs`: state is (filesystem,
names written so far this run).  The artifact path uses the cleaned
surname/given name; an existing artifact is skipped unless `force`. -/
def cvsLoop (force : Bool) : List Profile → List String → List String → List String × List String
  | [], fs, gen => (fs, gen)
  | p :: rest, fs, gen =>
    let name := cvName (cleanField p.nom) (cleanField p.prenom)
    if fs.contains name && !force then cvsLoop force rest fs gen
    else cvsLoop force rest (if fs.contains name then fs else name :: fs) (gen ++ [name])

/-- `cv_generator.generate_cvs`: fold over every profile row.  Returns the
final filesystem and the list of artifacts written during the run. -/
def generate_cvs (profiles : List Profile) (fs : List String) (force : Bool) :
    List String × List String :=
  cvsLoop force profiles fs []

/-- Loop body of `letter_generator.generate_letters` over the pending rows.
The profile lookup happens before the existence check (source lines 91-94),
and an empty lookup aborts the whole run with an uncaught `AttributeError`
(`profil.nom.upper()` on an empty selection) - the `.error` case.  The job
offer lookup only feeds the letter text and the template context, never the
control flow, so it is not tracked here. -/
def lettersLoop (profiles : List Profile) (force : Bool) :
    List Application → List String → List String → Except String (List String × List String)
  | [], fs, gen => .ok (fs, gen)
  | row :: rest, fs, gen =>
    match lookupProfile profiles row.profile_id with
    | none => .error ("AttributeError: empty profile selection for " ++ row.profile_id)
    | some p =>
      let name := lmName p.nom p.prenom row.job_id
      if fs.contains name && !force then lettersLoop profiles force rest fs gen
      else lettersLoop profiles force rest
        (if fs.contains name then fs else name :: fs) (gen ++ [name])

/-- `letter_generator.generate_letters`. -/
def generate_letters (profiles : List Profile) (apps : List Application)
    (fs : List String) (force : Bool) : Except String (List String × List String) :=
  lettersLoop profiles force (pendingApps apps) fs []

/-- Console reporting of the dispatcher, by application row index. -/
inductive LogEntry where
  | skippedMissingPdf (idx : Nat)
  | sent (idx : Nat)
  | sendFailed (idx : Nat)
deriving Repr, DecidableEq

/-- In-memory state of the dispatch loop.  `senders_df` is the
`senders_df` local of `send_applications`; `k` counts SMTP attempts;
`aborted` records an exception propagating out of the loop; `stopped`
records the fail-fast `break`. -/
structure LoopState where
  apps : List Application
  senders_df : Option (List SenderAcct)
  k : Nat
  log : List LogEntry
  aborted : Option String
  stopped : Bool
deriving Repr, DecidableEq

/-- Tail of one loop iteration once the sender account has been obtained
(email_sender.py lines 199-219).  `build_msg` reads
`offer.recruiter_email`; on an empty offer selection the header assembly
raises outside the try block, aborting the run.  Otherwise `send_email` is
attempted: on success the row is marked sent with the timestamp, on failure
the error is reported and, without `force`, the loop breaks. -/
def dispatchSend (offers : List JobOffer) (smtpOk : Nat → Bool) (now : String)
    (force : Bool) (st : LoopState) (idx : Nat) (row : Application) : LoopState :=
  match lookupOffer offers row.job_id with
  | none => { st with aborted := some "build_msg failed: empty offer selection" }
  | some _ =>
    if smtpOk st.k then
      { st with
        apps := st.apps.set idx (markSent now row)
        k := st.k + 1
        log := st.log ++ [.sent idx] }
    else
      { st with
        k := st.k + 1
        log := st.log ++ [.sendFailed idx]
        stopped := !force }

/-- One iteration of the dispatch loop (email_sender.py lines 171-219) on
application row `idx`.  A sticky `aborted` or the fail-fast `stopped` flag
skips the body.  The profile lookup aborts the run when empty (the
`profil.nom.upper()` of line 178); then the PDF guard may skip the row;
then the sender account is picked - `pick_sender` re-reads the senders
sheet from disk on every call, so its input is the table as stored at the
start of the run, and its `RuntimeError` aborts the run uncaught. -/
def dispatchStep (profs : List Profile) (offers : List JobOffer)
    (sendersSheet : Option (List SenderAcct)) (fs : List String)
    (smtpOk : Nat → Bool) (now : String) (force : Bool)
    (st : LoopState) (idx : Nat) : LoopState :=
  if st.aborted.isSome || st.stopped then st
  else
    match st.apps.get? idx with
    | none => st
    | some row =>
      match lookupProfile profs row.profile_id with
      | none => { st with aborted := some "AttributeError: empty profile selection" }
      | some p =>
        if !(fs.contains (cvName p.nom p.prenom) &&
             fs.contains (lmName p.nom p.prenom row.job_id)) then
          { st with log := st.log ++ [.skippedMissingPdf idx] }
        else
          match sendersSheet with
          | some tbl =>
            match pick_sender tbl with
            | .error e => { st with aborted := some e }
            | .ok (_, df') =>
              dispatchSend offers smtpOk now force { st with senders_df := some df' } idx row
          | none => dispatchSend offers smtpOk now force st idx row

/-- The in-memory applications table after the `sent_at`-column guard
(email_sender.py lines 156-157): adding the column fills it with `""`. -/
def ensuredApps (store : Store) : List Application :=
  if store.has_sent_at_col then store.applications
  else store.applications.map (fun a => { a with sent_at := "" })

/-- Observable outcome of `send_applications`: the workbook on disk after
the run, whether the final `ExcelWriter` block ran (`wrote`) and whether it
also replaced the senders sheet (`wroteSenders`), the final in-memory
applications table, the console log, and the uncaught exception if any. -/
structure DispatchOutcome where
  disk : Store
  wrote : Bool
  wroteSenders : Bool
  apps : List Application
  senders_out : Option (List SenderAcct)
  log : List LogEntry
  aborted : Option String
deriving Repr, DecidableEq

/-- `email_sender.send_applications`.  An empty todo set returns before the
writer block (lines 162-164).  An uncaught exception (empty profile or
offer selection, sender exhaustion) leaves the workbook untouched; a run
finishing the loop - including by the fail-fast `break` - replaces the
`applications` sheet and, when multi-account selection was used at least
once, the `senders` sheet, leaving all other sheets as they were. -/
def send_applications (store : Store) (fs : List String) (smtpOk : Nat → Bool)
    (now : String) (force : Bool) : DispatchOutcome :=
  let apps := ensuredApps store
  let todo := todoIdx apps
  if todo.isEmpty then
    { disk := store, wrote := false, wroteSenders := false
      apps := apps, senders_out := none, log := [], aborted := none }
  else
    let st := todo.foldl
      (dispatchStep store.profiles store.joboffers store.senders fs smtpOk now force)
      { apps := apps, senders_df := none, k := 0, log := [], aborted := none, stopped := false }
    match st.aborted with
    | some e =>
      { disk := store, wrote := false, wroteSenders := false
        apps := st.apps, senders_out := st.senders_df, log := st.log, aborted := some e }
    | none =>
      { disk :=
          { store with
            applications := st.apps
            has_sent_at_col := true
            senders := match st.senders_df with
              | some df => some df
              | none => store.senders }
        wrote := true
        wroteSenders := st.senders_df.isSome
        apps := st.apps, senders_out := st.senders_df, log := st.log, aborted := none }

/-! Concrete instances used by the scenario parts of the claims, by the
witnesses and by the counterexamples. -/

/-- Invariant tying the in-memory applications table of the dispatch loop
to the table it started from: a row is rewritten to its marked form exactly
when a success line for it has been logged, and is untouched otherwise. -/
def MarkInv (base : List Application) (now : String) (st : LoopState) : Prop :=
  ∀ i, (LogEntry.sent i ∈ st.log →
          st.apps.get? i = (base.get? i).map (markSent now)) ∧
       (LogEntry.sent i ∉ st.log → st.apps.get? i = base.get? i)

/-- A single sender account whose counter has reached its limit. -/
def quotaFullTbl : List SenderAcct := [⟨"solo@example.com", "pw", 5, 5⟩]

/-- A sender account with a fresh counter. -/
def freshAcct : SenderAcct := ⟨"solo@example.com", "pw", 5, 0⟩

/-- A single sender account with a fresh counter. -/
def freshTbl : List SenderAcct := [freshAcct]

/-- `freshTbl` after one selection. -/
def bumpedTbl : List SenderAcct := [⟨"solo@example.com", "pw", 5, 1⟩]

/-- A profile row used by the concrete runs. -/
def cxProfile : Profile := ⟨"p1", "Doe", "Ann", "summary"⟩

/-- A job offer row used by the concrete runs. -/
def cxOffer : JobOffer := ⟨"j1", "recruiter@example.com", "infos"⟩

/-- A second job offer row. -/
def cxOffer2 : JobOffer := ⟨"j2", "hr@example.com", "infos2"⟩

/-- A pending application referencing `cxProfile` and `cxOffer`. -/
def cxApp : Application := ⟨"p1", "j1", "Y", "", ""⟩

/-- A second pending application of the same candidate for `cxOffer2`. -/
def cxApp2 : Application := ⟨"p1", "j2", "Y", "", ""⟩

/-- An application whose e-mail-sent cell is whitespace only and whose
generate flag is lowercase. -/
def wsApp : Application := ⟨"p1", "j1", "y", "  ", ""⟩

/-- Filesystem holding both artifacts of `cxApp`. -/
def cxFs : List String := [cvName "Doe" "Ann", lmName "Doe" "Ann" "j1"]

/-- Filesystem holding the resume and both letters of `cxApp`/`cxApp2`. -/
def c6Fs : List String :=
  [cvName "Doe" "Ann", lmName "Doe" "Ann" "j1", lmName "Doe" "Ann" "j2"]

/-- Store whose only sender account has exhausted its quota and whose
applications sheet still lacks the timestamp column. -/
def cxStore : Store :=
  ⟨[cxProfile], [cxOffer], [cxApp], some quotaFullTbl, false, [("notes", "blob")]⟩

/-- Same store with a fresh sender account. -/
def okStore : Store :=
  ⟨[cxProfile], [cxOffer], [cxApp], some freshTbl, false, [("notes", "blob")]⟩

/-- Store with two pending applications in single-account mode. -/
def c6Store : Store :=
  ⟨[cxProfile], [cxOffer, cxOffer2], [cxApp, cxApp2], none, true, []⟩

/-- SMTP oracle that always succeeds. -/
def alwaysOk : Nat → Bool := fun _ => true

/-- SMTP oracle whose first attempt fails and later attempts succeed. -/
def failFirstSmtp : Nat → Bool := fun k => k != 0

/-- A formatted clock reading. -/
def nowStr : String := "01/01/2026 12:00:00"

/-! Helper lemmas about the sender chooser. -/

theorem chooseMinAux_none_of_exhausted :
    ∀ (tbl : List SenderAcct), (∀ a ∈ tbl, ¬ a.sent_today < a.daily_limit) →
      chooseMinAux tbl = none := by
  intro tbl
  induction tbl with
  | nil => intro _; rfl
  | cons a rest ih =>
    intro hall
    have hrest : chooseMinAux rest = none :=
      ih (fun x hx => hall x (List.mem_cons_of_mem a hx))
    have ha : ¬ a.sent_today < a.daily_limit := hall a (List.mem_cons_self a rest)
    simp [chooseMinAux, hrest, ha]

theorem exhausted_of_chooseMinAux_none :
    ∀ (tbl : List SenderAcct), chooseMinAux tbl = none →
      ∀ a ∈ tbl, ¬ a.sent_today < a.daily_limit := by
  intro tbl
  induction tbl with
  | nil => intro _ a ha; cases ha
  | cons a rest ih =>
    intro h x hx
    simp only [chooseMinAux] at h
    split at h
    next hr =>
      split_ifs at h with ha
      rcases List.mem_cons.mp hx with rfl | hx
      · exact ha
      · exact ih hr x hx
    next j0 b hr =>
      split_ifs at h

theorem chooseMinAux_spec :
    ∀ (tbl : List SenderAcct) (i : Nat) (snd : SenderAcct),
      chooseMinAux tbl = some (i, snd) →
      tbl.get? i = some snd ∧ snd.sent_today < snd.daily_limit ∧
      (∀ a ∈ tbl, a.sent_today < a.daily_limit → snd.sent_today ≤ a.sent_today) ∧
      (∀ j a, j < i → tbl.get? j = some a →
        a.sent_today < a.daily_limit → snd.sent_today < a.sent_today) := by
  intro tbl
  induction tbl with
  | nil => intro i snd h; cases h
  | cons a rest ih =>
    intro i snd h
    simp only [chooseMinAux] at h
    split at h
    next hr =>
      split_ifs at h with ha
      simp only [Option.some.injEq, Prod.mk.injEq] at h
      obtain ⟨rfl, rfl⟩ := h
      refine ⟨rfl, ha, ?_, ?_⟩
      · intro x hx hq
        rcases List.mem_cons.mp hx with rfl | hx
        · exact le_refl _
        · exact absurd hq (exhausted_of_chooseMinAux_none rest hr x hx)
      · intro j x hj _ _; omega
    next j0 b hr =>
      obtain ⟨hget, hq, hmin, hstable⟩ := ih j0 b hr
      split_ifs at h with ha hba
      · simp only [Option.some.injEq, Prod.mk.injEq] at h
        obtain ⟨rfl, rfl⟩ := h
        refine ⟨hget, hq, ?_, ?_⟩
        · intro x hx hxq
          rcases List.mem_cons.mp hx with rfl | hx
          · exact le_of_lt hba
          · exact hmin x hx hxq
        · intro j x hj hjget hxq
          cases j with
          | zero =>
            simp only [List.get?] at hjget
            cases hjget
            exact hba
          | succ j' =>
            exact hstable j' x (by omega) hjget hxq
      · simp only [Option.some.injEq, Prod.mk.injEq] at h
        obtain ⟨rfl, rfl⟩ := h
        refine ⟨rfl, ha, ?_, ?_⟩
        · intro x hx hxq
          rcases List.mem_cons.mp hx with rfl | hx
          · exact le_refl _
          · exact le_trans (by omega) (hmin x hx hxq)
        · intro j x hj _ _; omega
      · simp only [Option.some.injEq, Prod.mk.injEq] at h
        obtain ⟨rfl, rfl⟩ := h
        refine ⟨hget, hq, ?_, ?_⟩
        · intro x hx hxq
          rcases List.mem_cons.mp hx with rfl | hx
          · exact absurd hxq ha
          · exact hmin x hx hxq
        · intro j x hj hjget hxq
          cases j with
          | zero =>
            simp only [List.get?] at hjget
            cases hjget
            exact absurd hxq ha
          | succ j' =>
            exact hstable j' x (by omega) hjget hxq

/-! Helper lemmas about the counter bump. -/

theorem bumpAt_get?_self :
    ∀ (tbl : List SenderAcct) (i : Nat) (a : SenderAcct),
      tbl.get? i = some a →
      (bumpAt tbl i).get? i = some { a with sent_today := a.sent_today + 1 } := by
  intro tbl
  induction tbl with
  | nil => intro i a h; cases h
  | cons x rest ih =>
    intro i a h
    cases i with
    | zero => cases h; rfl
    | succ n => exact ih n a h

theorem bumpAt_get?_ne :
    ∀ (tbl : List SenderAcct) (i j : Nat), i ≠ j →
      (bumpAt tbl i).get? j = tbl.get? j := by
  intro tbl
  induction tbl with
  | nil => intro i j _; cases i <;> rfl
  | cons x rest ih =>
    intro i j hij
    cases i with
    | zero =>
      cases j with
      | zero => exact absurd rfl hij
      | succ m => rfl
    | succ n =>
      cases j with
      | zero => rfl
      | succ m => exact ih n m (by omega)

/-! Helper lemmas about the dispatch loop. -/

theorem markSent_idem (now : String) (a : Application) :
    markSent now (markSent now a) = markSent now a := rfl

theorem dispatchSend_MarkInv (offers : List JobOffer) (smtpOk : Nat → Bool)
    (now : String) (force : Bool) (st : LoopState) (idx : Nat) (row : Application)
    (base : List Application)
    (hrow : st.apps.get? idx = some row)
    (h : MarkInv base now st) :
    MarkInv base now (dispatchSend offers smtpOk now force st idx row) := by
  unfold dispatchSend
  split
  · exact h
  · split_ifs with hok
    · intro i
      by_cases hi : i = idx
      · subst hi
        have hlt : i < st.apps.length := (List.get?_eq_some.mp hrow).1
        have hmarked : some (markSent now row) = (base.get? i).map (markSent now) := by
          rcases Classical.em (LogEntry.sent i ∈ st.log) with hin | hnin
          · have hx := (h i).1 hin
            rw [hrow] at hx
            cases hb : base.get? i with
            | none => rw [hb] at hx; simp at hx
            | some b =>
              rw [hb] at hx
              simp only [Option.map_some'] at hx ⊢
              obtain rfl : row = markSent now b := by exact Option.some.inj hx
              rfl
          · have hx := (h i).2 hnin
            rw [hrow] at hx
            rw [← hx]
            rfl
        constructor
        · intro _
          simp only [List.get?_set_eq_of_lt _ hlt]
          exact hmarked
        · intro hno
          exact absurd (by simp) hno
      · constructor
        · intro hin
          have hin' : LogEntry.sent i ∈ st.log := by
            simp only [List.mem_append, List.mem_singleton] at hin
            rcases hin with hin | hin
            · exact hin
            · cases hin; exact absurd rfl hi
          rw [List.get?_set_ne]
          · exact (h i).1 hin'
          · exact fun e => hi e.symm
        · intro hnin
          have hnin' : LogEntry.sent i ∉ st.log := fun hc => hnin (by simp [hc])
          rw [List.get?_set_ne]
          · exact (h i).2 hnin'
          · exact fun e => hi e.symm
    · intro i
      have hiff : (LogEntry.sent i ∈ st.log ++ [LogEntry.sendFailed idx]) ↔
          LogEntry.sent i ∈ st.log := by simp
      exact ⟨fun hin => (h i).1 (hiff.mp hin), fun hnin => (h i).2 (fun hc => hnin (by simp [hc]))⟩

theorem dispatchStep_MarkInv (profs : List Profile) (offers : List JobOffer)
    (ss : Option (List SenderAcct)) (fs : List String) (smtpOk : Nat → Bool)
    (now : String) (force : Bool) (st : LoopState) (idx : Nat)
    (base : List Application) (h : MarkInv base now st) :
    MarkInv base now (dispatchStep profs offers ss fs smtpOk now force st idx) := by
  unfold dispatchStep
  split
  · exact h
  · split
    · exact h
    next row hrow =>
      split
      · exact h
      next p hp =>
        split
        · intro i
          have hiff : (LogEntry.sent i ∈ st.log ++ [LogEntry.skippedMissingPdf idx]) ↔
              LogEntry.sent i ∈ st.log := by simp
          exact ⟨fun hin => (h i).1 (hiff.mp hin),
                 fun hnin => (h i).2 (fun hc => hnin (by simp [hc]))⟩
        · split
          next tbl =>
            split
            · exact h
            next snd df' hpick =>
              exact dispatchSend_MarkInv offers smtpOk now force _ idx row base hrow h
          next => exact dispatchSend_MarkInv offers smtpOk now force st idx row base hrow h

theorem foldl_dispatchStep_MarkInv (profs : List Profile) (offers : List JobOffer)
    (ss : Option (List SenderAcct)) (fs : List String) (smtpOk : Nat → Bool)
    (now : String) (force : Bool) (base : List Application) :
    ∀ (l : List Nat) (st : LoopState), MarkInv base now st →
      MarkInv base now (l.foldl (dispatchStep profs offers ss fs smtpOk now force) st) := by
  intro l
  induction l with
  | nil => intro st h; exact h
  | cons x xs ih =>
    intro st h
    exact ih _ (dispatchStep_MarkInv profs offers ss fs smtpOk now force st x base h)

theorem dispatchStep_no_sent (profs : List Profile) (offers : List JobOffer)
    (tbl : List SenderAcct) (ss : Option (List SenderAcct))
    (fs : List String) (smtpOk : Nat → Bool)
    (now : String) (force : Bool) (st : LoopState) (idx : Nat)
    (hss : ss = some tbl)
    (hex : pick_sender tbl = .error noSenderMsg)
    (h : ∀ i, LogEntry.sent i ∉ st.log) :
    ∀ i, LogEntry.sent i ∉
      (dispatchStep profs offers ss fs smtpOk now force st idx).log := by
  unfold dispatchStep
  split
  · exact h
  · split
    · exact h
    next row hrow =>
      split
      · exact h
      next p hp =>
        split
        · intro i hc
          simp only [List.mem_append, List.mem_singleton] at hc
          rcases hc with hc | hc
          · exact h i hc
          · cases hc
        · split
          next tbl' =>
            injection hss with h2
            subst h2
            split
            · exact h
            next snd df' hpick =>
              rw [hex] at hpick
              cases hpick
          next =>
            exact absurd hss (by simp)

theorem foldl_dispatchStep_no_sent (profs : List Profile) (offers : List JobOffer)
    (tbl : List SenderAcct) (fs : List String) (smtpOk : Nat → Bool)
    (now : String) (force : Bool)
    (hex : pick_sender tbl = .error noSenderMsg) :
    ∀ (l : List Nat) (st : LoopState), (∀ i, LogEntry.sent i ∉ st.log) →
      ∀ i, LogEntry.sent i ∉
        (l.foldl (dispatchStep profs offers (some tbl) fs smtpOk now force) st).log := by
  intro l
  induction l with
  | nil => intro st h; exact h
  | cons x xs ih =>
    intro st h
    exact ih _ (dispatchStep_no_sent profs offers tbl (some tbl) fs smtpOk now force st x rfl hex h)

/-! Claim theorems. -/

/-- C7: for every senders table in which no account has `sent_today`
strictly below `daily_limit`, `pick_sender` fails with the exhaustion
error instead of returning an account, and a dispatch run reading that
table never sends any message (no application is dispatched). -/
theorem pick_sender_exhaustion (tbl : List SenderAcct)
    (h : ∀ a ∈ tbl, ¬ a.sent_today < a.daily_limit) :
    pick_sender tbl = .error noSenderMsg ∧
    ∀ (store : Store) (fs : List String) (smtpOk : Nat → Bool) (now : String)
      (force : Bool), store.senders = some tbl →
      ∀ i, LogEntry.sent i ∉ (send_applications store fs smtpOk now force).log := by
  have hnone := chooseMinAux_none_of_exhausted tbl h
  have hex : pick_sender tbl = .error noSenderMsg := by
    simp [pick_sender, hnone]
  refine ⟨hex, ?_⟩
  intro store fs smtpOk now force hss i
  simp only [send_applications]
  split
  · simp
  · rw [hss]
    split
    · exact foldl_dispatchStep_no_sent store.profiles store.joboffers tbl fs smtpOk
        now force hex (todoIdx (ensuredApps store))
        { apps := ensuredApps store, senders_df := none, k := 0, log := [],
          aborted := none, stopped := false }
        (fun _ hc => absurd hc (List.not_mem_nil _)) i
    · exact foldl_dispatchStep_no_sent store.profiles store.joboffers tbl fs smtpOk
        now force hex (todoIdx (ensuredApps store))
        { apps := ensuredApps store, senders_df := none, k := 0, log := [],
          aborted := none, stopped := false }
        (fun _ hc => absurd hc (List.not_mem_nil _)) i

/-- C8: every successful `pick_sender` call increments the chosen
account's `sent_today` counter by exactly one and leaves every other row
unchanged; and since only accounts with `sent_today` strictly below
`daily_limit` qualify, the invariant `sent_today ≤ daily_limit` is
preserved by every selection. -/
theorem pick_sender_increment_invariant (tbl : List SenderAcct)
    (snd : SenderAcct) (df' : List SenderAcct)
    (h : pick_sender tbl = .ok (snd, df')) :
    (∃ i, tbl.get? i = some snd ∧ snd.sent_today < snd.daily_limit ∧
      df' = bumpAt tbl i ∧
      df'.get? i = some { snd with sent_today := snd.sent_today + 1 } ∧
      ∀ j, j ≠ i → df'.get? j = tbl.get? j) ∧
    ((∀ a ∈ tbl, a.sent_today ≤ a.daily_limit) →
      ∀ a ∈ df', a.sent_today ≤ a.daily_limit) := by
  unfold pick_sender at h
  cases hc : chooseMinAux tbl with
  | none => rw [hc] at h; cases h
  | some p =>
    obtain ⟨i, s⟩ := p
    rw [hc] at h
    simp only [Except.ok.injEq, Prod.mk.injEq] at h
    obtain ⟨rfl, rfl⟩ := h
    obtain ⟨hget, hq, hmin, hstable⟩ := chooseMinAux_spec tbl i s hc
    constructor
    · refine ⟨i, hget, hq, rfl, bumpAt_get?_self tbl i s hget, ?_⟩
      intro j hj
      exact bumpAt_get?_ne tbl i j (fun e => hj e.symm)
    · intro hall a ha
      obtain ⟨n, hn⟩ := List.mem_iff_get?.mp ha
      by_cases hni : n = i
      · subst hni
        rw [bumpAt_get?_self tbl n s hget] at hn
        obtain rfl := Option.some.inj hn
        simp only
        omega
      · rw [bumpAt_get?_ne tbl i n (fun e => hni e.symm)] at hn
        exact hall a (List.get?_mem hn)

/-- Witness for C7 at a table whose single account has reached its quota. -/
theorem pick_sender_exhaustion_witness :
    pick_sender quotaFullTbl = .error noSenderMsg :=
  (pick_sender_exhaustion quotaFullTbl (by decide)).1

/-- Witness for C8 at a fresh one-account table. -/
theorem pick_sender_increment_invariant_witness :
    (∃ i, freshTbl.get? i = some freshAcct ∧
      freshAcct.sent_today < freshAcct.daily_limit ∧
      bumpedTbl = bumpAt freshTbl i ∧
      bumpedTbl.get? i = some { freshAcct with sent_today := freshAcct.sent_today + 1 } ∧
      ∀ j, j ≠ i → bumpedTbl.get? j = freshTbl.get? j) ∧
    ((∀ a ∈ freshTbl, a.sent_today ≤ a.daily_limit) →
      ∀ a ∈ bumpedTbl, a.sent_today ≤ a.daily_limit) :=
  pick_sender_increment_invariant freshTbl freshAcct bumpedTbl rfl

/-- Every character of the list being whitespace, the Python strip of the
list is empty. -/
theorem stripChars_eq_nil (l : List Char) (h : ∀ c ∈ l, c.isWhitespace) :
    stripChars l = [] := by
  unfold stripChars
  rw [List.dropWhile_eq_nil_iff.mpr h]
  rfl

/-- The selection predicate, unfolded to its two conjuncts. -/
theorem appPending_iff (b : Application) :
    appPending b = true ↔ pyUpper b.generate_lm = "Y" ∧ pyStrip b.email_sent = "" := by
  simp [appPending]

/-- Row-indexed form of the selection predicate. -/
theorem rowPending_iff (apps : List Application) (i : Nat) :
    rowPending apps i = true ↔ ∃ b, apps.get? i = some b ∧ appPending b = true := by
  unfold rowPending
  cases hb : apps.get? i with
  | none => simp
  | some b => simp

/-- C4: `generate_letters` and `send_applications` select an application
row exactly when its generate-letter flag uppercases to `"Y"` and its
e-mail-sent field strips to blank; in particular a row whose flag is not
truthy is never selected by either component, whatever its other fields. -/
theorem selection_predicate_exact (apps : List Application) (a : Application) :
    (a ∈ pendingApps apps ↔
      a ∈ apps ∧ pyUpper a.generate_lm = "Y" ∧ pyStrip a.email_sent = "") ∧
    (∀ i, i ∈ todoIdx apps ↔
      ∃ b, apps.get? i = some b ∧ pyUpper b.generate_lm = "Y" ∧ pyStrip b.email_sent = "") ∧
    (pyUpper a.generate_lm ≠ "Y" →
      a ∉ pendingApps apps ∧ ∀ i, apps.get? i = some a → i ∉ todoIdx apps) := by
  have h1 : a ∈ pendingApps apps ↔
      a ∈ apps ∧ pyUpper a.generate_lm = "Y" ∧ pyStrip a.email_sent = "" := by
    simp [pendingApps, List.mem_filter, appPending]
  have h2 : ∀ i, i ∈ todoIdx apps ↔
      ∃ b, apps.get? i = some b ∧ pyUpper b.generate_lm = "Y" ∧ pyStrip b.email_sent = "" := by
    intro i
    constructor
    · intro hmem
      obtain ⟨_, hpend⟩ := List.mem_filter.mp hmem
      obtain ⟨b, hb, hbp⟩ := (rowPending_iff apps i).mp hpend
      exact ⟨b, hb, (appPending_iff b).mp hbp⟩
    · rintro ⟨b, hb, hby, hbs⟩
      have hlt : i < apps.length := (List.get?_eq_some.mp hb).1
      exact List.mem_filter.mpr ⟨List.mem_range.mpr hlt,
        (rowPending_iff apps i).mpr ⟨b, hb, (appPending_iff b).mpr ⟨hby, hbs⟩⟩⟩
  refine ⟨h1, h2, ?_⟩
  intro hflag
  constructor
  · intro hc
    exact hflag (h1.mp hc).2.1
  · intro i hget hc
    obtain ⟨b, hb, hbflag, _⟩ := (h2 i).mp hc
    rw [hget] at hb
    obtain rfl := Option.some.inj hb
    exact hflag hbflag

/-- Witness for C4 at a concrete sheet. -/
theorem selection_predicate_exact_witness :
    (wsApp ∈ pendingApps [wsApp] ↔
      wsApp ∈ [wsApp] ∧ pyUpper wsApp.generate_lm = "Y" ∧ pyStrip wsApp.email_sent = "") ∧
    (∀ i, i ∈ todoIdx [wsApp] ↔
      ∃ b, [wsApp].get? i = some b ∧ pyUpper b.generate_lm = "Y" ∧
        pyStrip b.email_sent = "") ∧
    (pyUpper wsApp.generate_lm ≠ "Y" →
      wsApp ∉ pendingApps [wsApp] ∧ ∀ i, [wsApp].get? i = some wsApp → i ∉ todoIdx [wsApp]) :=
  selection_predicate_exact [wsApp] wsApp

/-- C10: an application whose e-mail-sent field holds only whitespace
characters (the normalised form of a missing value being the empty string,
which is covered) satisfies the selection predicate of both components as
soon as its generate flag is truthy, so it is eligible for letter
generation and dispatch. -/
theorem whitespace_email_sent_pending (a : Application)
    (hflag : pyUpper a.generate_lm = "Y")
    (hws : ∀ c ∈ a.email_sent.data, c.isWhitespace) :
    appPending a = true ∧
    (∀ apps, a ∈ apps → a ∈ pendingApps apps) ∧
    (∀ apps i, apps.get? i = some a → i ∈ todoIdx apps) := by
  have hstrip : pyStrip a.email_sent = "" := by
    unfold pyStrip
    rw [stripChars_eq_nil _ hws]
  have hpend : appPending a = true := by
    unfold appPending
    rw [hflag, hstrip]
    rfl
  refine ⟨hpend, ?_, ?_⟩
  · intro apps ha
    exact List.mem_filter.mpr ⟨ha, hpend⟩
  · intro apps i hget
    have hlt : i < apps.length := (List.get?_eq_some.mp hget).1
    refine List.mem_filter.mpr ⟨List.mem_range.mpr hlt, ?_⟩
    simp only [rowPending, hget]
    exact hpend

/-- Witness for C10 at a whitespace-only sent field and lowercase flag. -/
theorem whitespace_email_sent_pending_witness :
    appPending wsApp = true ∧
    (∀ apps, wsApp ∈ apps → wsApp ∈ pendingApps apps) ∧
    (∀ apps i, apps.get? i = some wsApp → i ∈ todoIdx apps) :=
  whitespace_email_sent_pending wsApp (by decide) (by decide)

/-- C5: after a dispatch run, an application row carries a truthy
e-mail-sent value (`"YES"`) and a non-blank timestamp exactly when its
message was transmitted successfully during the run; a row that was never
successfully dispatched - skipped for missing artifacts, failed in
transit, or never selected - is left with the table values it started
from, so fields that were blank remain blank. -/
theorem dispatch_marks_exactly_sent (store : Store) (fs : List String)
    (smtpOk : Nat → Bool) (now : String) (force : Bool)
    (hnow : pyStrip now ≠ "") :
    ∀ i,
      (LogEntry.sent i ∈ (send_applications store fs smtpOk now force).log →
        (send_applications store fs smtpOk now force).apps.get? i =
          ((ensuredApps store).get? i).map (markSent now) ∧
        ∀ a, (send_applications store fs smtpOk now force).apps.get? i = some a →
          a.email_sent = "YES" ∧ pyStrip a.sent_at ≠ "") ∧
      (LogEntry.sent i ∉ (send_applications store fs smtpOk now force).log →
        (send_applications store fs smtpOk now force).apps.get? i =
          (ensuredApps store).get? i) := by
  have hinit : MarkInv (ensuredApps store) now
      { apps := ensuredApps store, senders_df := none, k := 0, log := [],
        aborted := none, stopped := false } := by
    intro i
    exact ⟨fun hc => absurd hc (List.not_mem_nil _), fun _ => rfl⟩
  have hinv := foldl_dispatchStep_MarkInv store.profiles store.joboffers store.senders
    fs smtpOk now force (ensuredApps store) (todoIdx (ensuredApps store))
    { apps := ensuredApps store, senders_df := none, k := 0, log := [],
      aborted := none, stopped := false } hinit
  intro i
  simp only [send_applications]
  split
  · constructor
    · intro hc
      exact absurd hc (List.not_mem_nil _)
    · intro _
      rfl
  · have hmark : ∀ a,
        (((ensuredApps store).get? i).map (markSent now)) = some a →
        a.email_sent = "YES" ∧ pyStrip a.sent_at ≠ "" := by
      intro a ha
      cases hb : (ensuredApps store).get? i with
      | none => rw [hb] at ha; cases ha
      | some b =>
        rw [hb] at ha
        simp only [Option.map_some'] at ha
        obtain rfl := Option.some.inj ha
        exact ⟨rfl, hnow⟩
    split
    · constructor
      · intro hsent
        have h1 := (hinv i).1 hsent
        refine ⟨h1, ?_⟩
        intro a ha
        rw [h1] at ha
        exact hmark a ha
      · intro hnsent
        exact (hinv i).2 hnsent
    · constructor
      · intro hsent
        have h1 := (hinv i).1 hsent
        refine ⟨h1, ?_⟩
        intro a ha
        rw [h1] at ha
        exact hmark a ha
      · intro hnsent
        exact (hinv i).2 hnsent

/-- Witness for C5 at a concrete successful run. -/
theorem dispatch_marks_exactly_sent_witness :
    (LogEntry.sent 0 ∈ (send_applications okStore cxFs alwaysOk nowStr false).log →
      (send_applications okStore cxFs alwaysOk nowStr false).apps.get? 0 =
        ((ensuredApps okStore).get? 0).map (markSent nowStr) ∧
      ∀ a, (send_applications okStore cxFs alwaysOk nowStr false).apps.get? 0 = some a →
        a.email_sent = "YES" ∧ pyStrip a.sent_at ≠ "") ∧
    (LogEntry.sent 0 ∉ (send_applications okStore cxFs alwaysOk nowStr false).log →
      (send_applications okStore cxFs alwaysOk nowStr false).apps.get? 0 =
        (ensuredApps okStore).get? 0) :=
  dispatch_marks_exactly_sent okStore cxFs alwaysOk nowStr false (by decide) 0

/-- Counterexample to C2: a run whose todo set is non-empty and which ends
by sender-quota exhaustion persists nothing at all - the `RuntimeError`
raised by `pick_sender` propagates out of `send_applications` before the
`ExcelWriter` block, so the applications sheet is not written back (here
the write would have added the missing `sent_at` column) and the workbook
on disk is exactly the input workbook. -/
theorem exhaustion_skips_persist_cx :
    todoIdx (ensuredApps cxStore) = [0] ∧
    (send_applications cxStore cxFs alwaysOk nowStr false).aborted = some noSenderMsg ∧
    (send_applications cxStore cxFs alwaysOk nowStr false).wrote = false ∧
    (send_applications cxStore cxFs alwaysOk nowStr false).disk = cxStore ∧
    cxStore.has_sent_at_col = false := by
  refine ⟨rfl, rfl, rfl, rfl, rfl⟩

/-- C2 (amended): for every run with a non-empty todo set that terminates
without an uncaught exception - by completing the loop or by the fail-fast
break - the final write replaces the applications sheet with the in-memory
table and, exactly when multi-account selection was used, the senders
sheet with the last table returned by `pick_sender`, leaving the profiles,
job-offers and all unrelated sheets unchanged; a run ended by an uncaught
exception (sender-quota exhaustion or a data-integrity crash) writes
nothing and leaves the workbook untouched. -/
theorem send_applications_persistence_frame (store : Store) (fs : List String)
    (smtpOk : Nat → Bool) (now : String) (force : Bool)
    (h : todoIdx (ensuredApps store) ≠ []) :
    ((send_applications store fs smtpOk now force).aborted = none →
      (send_applications store fs smtpOk now force).wrote = true ∧
      (send_applications store fs smtpOk now force).disk.applications =
        (send_applications store fs smtpOk now force).apps ∧
      (send_applications store fs smtpOk now force).disk.profiles = store.profiles ∧
      (send_applications store fs smtpOk now force).disk.joboffers = store.joboffers ∧
      (send_applications store fs smtpOk now force).disk.others = store.others ∧
      (send_applications store fs smtpOk now force).wroteSenders =
        (send_applications store fs smtpOk now force).senders_out.isSome ∧
      (∀ df, (send_applications store fs smtpOk now force).senders_out = some df →
        (send_applications store fs smtpOk now force).disk.senders = some df) ∧
      ((send_applications store fs smtpOk now force).senders_out = none →
        (send_applications store fs smtpOk now force).disk.senders = store.senders)) ∧
    (∀ e, (send_applications store fs smtpOk now force).aborted = some e →
      (send_applications store fs smtpOk now force).wrote = false ∧
      (send_applications store fs smtpOk now force).disk = store) := by
  simp only [send_applications]
  split
  next hempty =>
    exact absurd (List.isEmpty_iff.mp hempty) h
  next =>
    split
    next e heq =>
      constructor
      · intro hc
        cases hc
      · intro e' he'
        exact ⟨rfl, rfl⟩
    next heq =>
      constructor
      · intro _
        refine ⟨rfl, rfl, rfl, rfl, rfl, rfl, ?_, ?_⟩
        · intro df hdf
          dsimp only at hdf ⊢
          rw [hdf]
        · intro hdf
          dsimp only at hdf ⊢
          rw [hdf]
      · intro e' he'
        cases he'

/-- Witness for C2 (amended) at a concrete run of both terminations. -/
theorem send_applications_persistence_frame_witness :
    ((send_applications okStore cxFs alwaysOk nowStr false).aborted = none →
      (send_applications okStore cxFs alwaysOk nowStr false).wrote = true ∧
      (send_applications okStore cxFs alwaysOk nowStr false).disk.applications =
        (send_applications okStore cxFs alwaysOk nowStr false).apps ∧
      (send_applications okStore cxFs alwaysOk nowStr false).disk.profiles = okStore.profiles ∧
      (send_applications okStore cxFs alwaysOk nowStr false).disk.joboffers = okStore.joboffers ∧
      (send_applications okStore cxFs alwaysOk nowStr false).disk.others = okStore.others ∧
      (send_applications okStore cxFs alwaysOk nowStr false).wroteSenders =
        (send_applications okStore cxFs alwaysOk nowStr false).senders_out.isSome ∧
      (∀ df, (send_applications okStore cxFs alwaysOk nowStr false).senders_out = some df →
        (send_applications okStore cxFs alwaysOk nowStr false).disk.senders = some df) ∧
      ((send_applications okStore cxFs alwaysOk nowStr false).senders_out = none →
        (send_applications okStore cxFs alwaysOk nowStr false).disk.senders = okStore.senders)) ∧
    (∀ e, (send_applications okStore cxFs alwaysOk nowStr false).aborted = some e →
      (send_applications okStore cxFs alwaysOk nowStr false).wrote = false ∧
      (send_applications okStore cxFs alwaysOk nowStr false).disk = okStore) :=
  send_applications_persistence_frame okStore cxFs alwaysOk nowStr false (by decide)

/-- A dispatch-loop step on a live state and a fully resolvable row in
single-account mode reduces to the SMTP attempt. -/
theorem dispatchStep_send_eq (profs : List Profile) (offers : List JobOffer)
    (fs : List String) (smtpOk : Nat → Bool) (now : String) (force : Bool)
    (st : LoopState) (idx : Nat) (row : Application) (p : Profile) (o : JobOffer)
    (hab : st.aborted = none) (hstop : st.stopped = false)
    (hrow : st.apps.get? idx = some row)
    (hp : lookupProfile profs row.profile_id = some p)
    (hcv : fs.contains (cvName p.nom p.prenom) = true)
    (hlm : fs.contains (lmName p.nom p.prenom row.job_id) = true)
    (ho : lookupOffer offers row.job_id = some o) :
    dispatchStep profs offers none fs smtpOk now force st idx =
      (if smtpOk st.k then
        { st with
          apps := st.apps.set idx (markSent now row)
          k := st.k + 1
          log := st.log ++ [LogEntry.sent idx] }
      else
        { st with
          k := st.k + 1
          log := st.log ++ [LogEntry.sendFailed idx]
          stopped := !force }) := by
  unfold dispatchStep
  rw [if_neg (by simp [hab, hstop])]
  simp only [hrow, hp, hcv, hlm]
  rw [if_neg (by simp)]
  show dispatchSend offers smtpOk now force st idx row = _
  unfold dispatchSend
  rw [ho]

/-- A dispatch-loop step after the fail-fast break does nothing. -/
theorem dispatchStep_of_stopped (profs : List Profile) (offers : List JobOffer)
    (ss : Option (List SenderAcct)) (fs : List String) (smtpOk : Nat → Bool)
    (now : String) (force : Bool) (st : LoopState) (idx : Nat)
    (h : st.stopped = true) :
    dispatchStep profs offers ss fs smtpOk now force st idx = st := by
  unfold dispatchStep
  rw [if_pos (by simp [h])]

/-- C6: in a dispatch run whose todo set consists of two resolvable
pending applications - profiles found, both artifacts present, a sender
available (single-account mode) - where the first SMTP attempt raises: with
`force` false the loop breaks at once, so the only console line is the
failure of the first row, no further row is attempted, and no row is
marked; with `force` true the failure is logged, the failed row is left
unmarked, and the second row is still attempted. -/
theorem failfast_vs_force (store : Store) (fs : List String) (smtpOk : Nat → Bool)
    (now : String) (i j : Nat) (ri rj : Application) (pri prj : Profile)
    (oi oj : JobOffer)
    (hij : i ≠ j)
    (htodo : todoIdx (ensuredApps store) = [i, j])
    (hri : (ensuredApps store).get? i = some ri)
    (hrj : (ensuredApps store).get? j = some rj)
    (hpi : lookupProfile store.profiles ri.profile_id = some pri)
    (hpj : lookupProfile store.profiles rj.profile_id = some prj)
    (hcvi : fs.contains (cvName pri.nom pri.prenom) = true)
    (hlmi : fs.contains (lmName pri.nom pri.prenom ri.job_id) = true)
    (hcvj : fs.contains (cvName prj.nom prj.prenom) = true)
    (hlmj : fs.contains (lmName prj.nom prj.prenom rj.job_id) = true)
    (hoi : lookupOffer store.joboffers ri.job_id = some oi)
    (hoj : lookupOffer store.joboffers rj.job_id = some oj)
    (hsingle : store.senders = none)
    (hfail : smtpOk 0 = false) :
    ((send_applications store fs smtpOk now false).log = [LogEntry.sendFailed i] ∧
     (send_applications store fs smtpOk now false).apps = ensuredApps store) ∧
    (LogEntry.sendFailed i ∈ (send_applications store fs smtpOk now true).log ∧
     (LogEntry.sent j ∈ (send_applications store fs smtpOk now true).log ∨
      LogEntry.sendFailed j ∈ (send_applications store fs smtpOk now true).log) ∧
     (send_applications store fs smtpOk now true).apps.get? i = some ri) := by
  constructor
  · have hstep1 : dispatchStep store.profiles store.joboffers store.senders fs smtpOk
        now false
        { apps := ensuredApps store, senders_df := none, k := 0, log := [],
          aborted := none, stopped := false } i =
        { apps := ensuredApps store, senders_df := none, k := 1,
          log := [LogEntry.sendFailed i], aborted := none, stopped := true } := by
      rw [hsingle,
        dispatchStep_send_eq store.profiles store.joboffers fs smtpOk now false _ i
          ri pri oi rfl rfl hri hpi hcvi hlmi hoi]
      simp [hfail]
    have hstep2 : dispatchStep store.profiles store.joboffers store.senders fs smtpOk
        now false
        { apps := ensuredApps store, senders_df := none, k := 1,
          log := [LogEntry.sendFailed i], aborted := none, stopped := true } j =
        { apps := ensuredApps store, senders_df := none, k := 1,
          log := [LogEntry.sendFailed i], aborted := none, stopped := true } :=
      dispatchStep_of_stopped store.profiles store.joboffers store.senders fs smtpOk
        now false _ j rfl
    simp only [send_applications]
    rw [htodo]
    split
    next hempty => simp at hempty
    next =>
      rw [List.foldl_cons, hstep1, List.foldl_cons, hstep2, List.foldl_nil]
      exact ⟨rfl, rfl⟩
  · have hstep1 : dispatchStep store.profiles store.joboffers none fs smtpOk
        now true
        { apps := ensuredApps store, senders_df := none, k := 0, log := [],
          aborted := none, stopped := false } i =
        { apps := ensuredApps store, senders_df := none, k := 1,
          log := [LogEntry.sendFailed i], aborted := none, stopped := false } := by
      rw [dispatchStep_send_eq store.profiles store.joboffers fs smtpOk now true _ i
          ri pri oi rfl rfl hri hpi hcvi hlmi hoi]
      simp [hfail]
    have hstep2 : dispatchStep store.profiles store.joboffers none fs smtpOk now true
        { apps := ensuredApps store, senders_df := none, k := 1,
          log := [LogEntry.sendFailed i], aborted := none, stopped := false } j =
        (if smtpOk 1 then
          { apps := (ensuredApps store).set j (markSent now rj), senders_df := none,
            k := 2, log := [LogEntry.sendFailed i, LogEntry.sent j], aborted := none,
            stopped := false }
        else
          { apps := ensuredApps store, senders_df := none, k := 2,
            log := [LogEntry.sendFailed i, LogEntry.sendFailed j], aborted := none,
            stopped := false }) := by
      rw [dispatchStep_send_eq store.profiles store.joboffers fs smtpOk now true _ j
          rj prj oj rfl rfl hrj hpj hcvj hlmj hoj]
      simp
    simp only [send_applications]
    rw [htodo, hsingle]
    split
    next hempty => simp at hempty
    next =>
      rw [List.foldl_cons, hstep1, List.foldl_cons, hstep2, List.foldl_nil]
      by_cases hs1 : smtpOk 1 = true
      · rw [if_pos hs1]
        refine ⟨by simp, Or.inl (by simp), ?_⟩
        rw [List.get?_set_ne]
        · exact hri
        · exact fun e => hij e.symm
      · rw [if_neg (by simp [hs1])]
        exact ⟨by simp, Or.inr (by simp), hri⟩

/-- Witness for C6 at a concrete two-application run whose first SMTP
attempt fails. -/
theorem failfast_vs_force_witness :
    ((send_applications c6Store c6Fs failFirstSmtp nowStr false).log =
        [LogEntry.sendFailed 0] ∧
     (send_applications c6Store c6Fs failFirstSmtp nowStr false).apps =
        ensuredApps c6Store) ∧
    (LogEntry.sendFailed 0 ∈ (send_applications c6Store c6Fs failFirstSmtp nowStr true).log ∧
     (LogEntry.sent 1 ∈ (send_applications c6Store c6Fs failFirstSmtp nowStr true).log ∨
      LogEntry.sendFailed 1 ∈ (send_applications c6Store c6Fs failFirstSmtp nowStr true).log) ∧
     (send_applications c6Store c6Fs failFirstSmtp nowStr true).apps.get? 0 = some cxApp) :=
  failfast_vs_force c6Store c6Fs failFirstSmtp nowStr 0 1 cxApp cxApp2 cxProfile cxProfile
    cxOffer cxOffer2 (by decide) (by decide) (by decide) (by decide) (by decide) (by decide)
    (by decide) (by decide) (by decide) (by decide) (by decide) (by decide) rfl (by decide)

/-- Filesystem monotonicity of the resume loop. -/
theorem cvsLoop_mono (force : Bool) :
    ∀ (rows : List Profile) (fs gen : List String) (s : String),
      s ∈ fs → s ∈ (cvsLoop force rows fs gen).1 := by
  intro rows
  induction rows with
  | nil => intro fs gen s hs; exact hs
  | cons p rest ih =>
    intro fs gen s hs
    simp only [cvsLoop]
    split
    · exact ih _ _ s hs
    · refine ih _ _ s ?_
      split
      · exact hs
      · exact List.mem_cons_of_mem _ hs

/-- After a resume run, every profile of the sheet has its artifact on the
filesystem. -/
theorem cvsLoop_covers (force : Bool) :
    ∀ (rows : List Profile) (fs gen : List String) (p : Profile), p ∈ rows →
      cvName (cleanField p.nom) (cleanField p.prenom) ∈ (cvsLoop force rows fs gen).1 := by
  intro rows
  induction rows with
  | nil => intro fs gen p hp; cases hp
  | cons q rest ih =>
    intro fs gen p hp
    rcases List.mem_cons.mp hp with rfl | hp'
    · simp only [cvsLoop]
      split
      next hc =>
        refine cvsLoop_mono force rest _ _ _ ?_
        exact List.mem_of_elem_eq_true (Bool.and_elim_left hc)
      next hc =>
        refine cvsLoop_mono force rest _ _ _ ?_
        split
        next hc2 => exact List.mem_of_elem_eq_true hc2
        next => exact List.mem_cons_self _ _
    · simp only [cvsLoop]
      split
      · exact ih _ _ p hp'
      · exact ih _ _ p hp'

/-- A non-forced resume run over a filesystem already holding every
artifact changes nothing and writes nothing. -/
theorem cvsLoop_skip_all :
    ∀ (rows : List Profile) (fs gen : List String),
      (∀ p ∈ rows, cvName (cleanField p.nom) (cleanField p.prenom) ∈ fs) →
      cvsLoop false rows fs gen = (fs, gen) := by
  intro rows
  induction rows with
  | nil => intro fs gen _; rfl
  | cons q rest ih =>
    intro fs gen h
    have hq : fs.contains (cvName (cleanField q.nom) (cleanField q.prenom)) = true :=
      List.elem_eq_true_of_mem (h q (List.mem_cons_self q rest))
    simp only [cvsLoop, hq, Bool.not_false, Bool.and_true, if_true]
    exact ih fs gen (fun p hp => h p (List.mem_cons_of_mem q hp))

/-- Filesystem monotonicity of the letters loop. -/
theorem lettersLoop_mono (profs : List Profile) (force : Bool) :
    ∀ (rows : List Application) (fs gen fs1 gen1 : List String) (s : String),
      lettersLoop profs force rows fs gen = .ok (fs1, gen1) →
      s ∈ fs → s ∈ fs1 := by
  intro rows
  induction rows with
  | nil =>
    intro fs gen fs1 gen1 s hok hs
    simp only [lettersLoop, Except.ok.injEq, Prod.mk.injEq] at hok
    obtain ⟨rfl, rfl⟩ := hok
    exact hs
  | cons row rest ih =>
    intro fs gen fs1 gen1 s hok hs
    simp only [lettersLoop] at hok
    split at hok
    · cases hok
    next p hp =>
      split at hok
      · exact ih _ _ _ _ s hok hs
      · refine ih _ _ _ _ s hok ?_
        split
        · exact hs
        · exact List.mem_cons_of_mem _ hs

/-- After a successful letters run, every pending row has a found profile
and its letter artifact on the filesystem. -/
theorem lettersLoop_covers (profs : List Profile) (force : Bool) :
    ∀ (rows : List Application) (fs gen fs1 gen1 : List String),
      lettersLoop profs force rows fs gen = .ok (fs1, gen1) →
      ∀ row ∈ rows, ∃ p, lookupProfile profs row.profile_id = some p ∧
        lmName p.nom p.prenom row.job_id ∈ fs1 := by
  intro rows
  induction rows with
  | nil => intro fs gen fs1 gen1 _ row hrow; cases hrow
  | cons r rest ih =>
    intro fs gen fs1 gen1 hok row hrow
    simp only [lettersLoop] at hok
    split at hok
    · cases hok
    next p hp =>
      rcases List.mem_cons.mp hrow with rfl | hrow'
      · refine ⟨p, hp, ?_⟩
        split at hok
        next hc =>
          exact lettersLoop_mono profs force rest _ _ _ _ _ hok
            (List.mem_of_elem_eq_true (Bool.and_elim_left hc))
        next hc =>
          refine lettersLoop_mono profs force rest _ _ _ _ _ hok ?_
          split
          next hc2 => exact List.mem_of_elem_eq_true hc2
          next => exact List.mem_cons_self _ _
      · split at hok
        · exact ih _ _ _ _ hok row hrow'
        · exact ih _ _ _ _ hok row hrow'

/-- A non-forced letters run over a filesystem already holding every
pending letter succeeds, changes nothing and writes nothing. -/
theorem lettersLoop_skip_all (profs : List Profile) :
    ∀ (rows : List Application) (fs gen : List String),
      (∀ row ∈ rows, ∃ p, lookupProfile profs row.profile_id = some p ∧
        lmName p.nom p.prenom row.job_id ∈ fs) →
      lettersLoop profs false rows fs gen = .ok (fs, gen) := by
  intro rows
  induction rows with
  | nil => intro fs gen _; rfl
  | cons r rest ih =>
    intro fs gen h
    obtain ⟨p, hp, hmem⟩ := h r (List.mem_cons_self r rest)
    have hc : fs.contains (lmName p.nom p.prenom r.job_id) = true :=
      List.elem_eq_true_of_mem hmem
    simp only [lettersLoop, hp, hc, Bool.not_false, Bool.and_true, if_true]
    exact ih fs gen (fun row hrow => h row (List.mem_cons_of_mem r hrow))

/-- C9: with `force` false both builders skip every item whose artifact
already exists, so a second non-forced run right after a first one
generates no artifact and leaves the filesystem exactly as the first run
left it - running either builder twice without `force` produces no
duplicate artifacts and no changed output. -/
theorem generation_idempotent (profs : List Profile) (apps : List Application)
    (fs : List String) :
    (generate_cvs profs (generate_cvs profs fs false).1 false =
      ((generate_cvs profs fs false).1, [])) ∧
    (∀ fs1 gen1, generate_letters profs apps fs false = .ok (fs1, gen1) →
      generate_letters profs apps fs1 false = .ok (fs1, [])) := by
  constructor
  · exact cvsLoop_skip_all profs (generate_cvs profs fs false).1 []
      (fun p hp => cvsLoop_covers false profs fs [] p hp)
  · intro fs1 gen1 hok
    exact lettersLoop_skip_all profs (pendingApps apps) fs1 []
      (fun row hrow => lettersLoop_covers profs false (pendingApps apps) fs [] fs1 gen1
        hok row hrow)

/-- Witness for C9 at a concrete workbook. -/
theorem generation_idempotent_witness :
    (generate_cvs [cxProfile] (generate_cvs [cxProfile] [] false).1 false =
      ((generate_cvs [cxProfile] [] false).1, [])) ∧
    (∀ fs1 gen1, generate_letters [cxProfile] [cxApp] [] false = .ok (fs1, gen1) →
      generate_letters [cxProfile] [cxApp] fs1 false = .ok (fs1, [])) :=
  generation_idempotent [cxProfile] [cxApp] []

end JobAutopilot
